import Mathlib

/-! The name checker of cxxlintaur (`src/name-checker.cc`).

A shallow embedding of the naming rule engine, the visit handlers of
`NameCheckerASTVisitor` and the report of `NameCheckerFrontendAction`.

Conventions of the embedding:

* a `StringRef` / `std::string` is the list of its `char`s, a `Char` with a
  code below 256 being the byte of that code; `char` is signed, and
  `std::toupper`, `std::tolower` and `std::isdigit` take and return `int`, so
  the tests of the source on a character are written on its `int` value
  (`charToInt`), with the functions of the "C" locale as glibc has them;
* a read outside a string (`name[0]`, `name.front()`, `name.back()` on an
  empty `StringRef`) is undefined in the source and is `none` here, so the
  predicates that read a character return `Option Bool`;
* the `int` run counters are natural numbers (they are bounded by the length
  of an identifier, far below `2^31`), `size_t` arithmetic that wraps is
  written with an explicit `% 2^64`, and a conversion to `int` with `toInt`;
* the violation queue `std::queue<BadNameEntry>` is a list, `push` appends at
  the end and `front`/`pop` take from the head;
* `llvm::outs()` is the text written so far.
-/

namespace NameChecker

/-! ## Data model -/

/-- The `std::string` / `llvm::StringRef` of the source: its characters in order. -/
abbrev StringRef := List Char

/-- The `enum class Entity` of the source. -/
inductive Entity where
  | kVariable
  | kField
  | kType
  | kConst
  | kFunction
  deriving DecidableEq

/-- The `struct BadNameEntry` of the source. -/
structure BadNameEntry where
  entity : Entity
  name : StringRef
  filename : StringRef
  line : Int
  deriving DecidableEq

/-- The `std::queue<BadNameEntry>` held by the front-end action. -/
abbrev Queue := List BadNameEntry

/-- Conversion of an unsigned value to `int`, as `static_cast<int>` (and the implicit
conversion of a `size_t` argument to an `int` parameter) does it on a 32-bit `int`. -/
def toInt (n : Nat) : Int :=
  if n % 2 ^ 32 < 2 ^ 31 then ((n % 2 ^ 32 : Nat) : Int) else ((n % 2 ^ 32 : Nat) : Int) - 2 ^ 32

/-- The function `Str` of the source: the label of an entity. -/
def Str : Entity → StringRef
  | Entity.kVariable => "variable".toList
  | Entity.kField => "field".toList
  | Entity.kType => "type".toList
  | Entity.kConst => "const".toList
  | Entity.kFunction => "function".toList

/-! ## Characters -/

/-- The value of a `char` converted to `int`. `char` is signed: an ASCII character has
its code and a byte from 0x80 to 0xFF has its code minus 256. A character above U+00FF
is not one `char`: it stands for the bytes of its UTF-8 encoding, which are all bytes
from 0x80 to 0xF4, and is given the value of the last of them. -/
def charToInt (c : Char) : Int :=
  if c.toNat < 128 then (c.toNat : Int)
  else if c.toNat < 256 then (c.toNat : Int) - 256
  else ((c.toNat % 64 : Nat) : Int) - 128

/-- The `std::toupper` of the "C" locale on an `int`: a lower-case letter gives its
upper-case letter; a negative argument from -128 to -2, which is what a byte from 0x80
to 0xFE of a signed `char` converts to, gives the table entry of that byte, the byte as
an unsigned value; every other argument, `EOF` (-1) included, gives itself. -/
def toupper (c : Int) : Int :=
  if 97 ≤ c ∧ c ≤ 122 then c - 32
  else if -128 ≤ c ∧ c < -1 then c + 256
  else c

/-- The `std::tolower` of the "C" locale on an `int`: an upper-case letter gives its
lower-case letter; a negative argument from -128 to -2 gives the table entry of its byte,
the byte as an unsigned value; every other argument, `EOF` (-1) included, gives itself. -/
def tolower (c : Int) : Int :=
  if 65 ≤ c ∧ c ≤ 90 then c + 32
  else if -128 ≤ c ∧ c < -1 then c + 256
  else c

/-- The `std::isdigit` test on an `int`: true for the codes of `0` to `9` only. -/
def isdigit (c : Int) : Bool := decide (48 ≤ c ∧ c ≤ 57)

/-! ## Report formatting -/

/-- The `while` loop of `GetFilename`, started at index `i`: it walks down while
`i < path.size() && path[i] != '/'`. When `--i` is executed at `i = 0` the index wraps
to `2^64 - 1`, which is not below the size of any `std::string`, so the loop stops there. -/
def GetFilename.loop (path : StringRef) : Nat → Nat
  | 0 =>
    if h : 0 < path.length then
      if path[0] ≠ '/' then 2 ^ 64 - 1 else 0
    else 0
  | i + 1 =>
    if h : i + 1 < path.length then
      if path[i + 1] ≠ '/' then GetFilename.loop path i else i + 1
    else i + 1

/-- The function `GetFilename` of the source. -/
def GetFilename (path : StringRef) : StringRef :=
  let i := (path.length + 2 ^ 64 - 1) % 2 ^ 64
  let i := GetFilename.loop path i
  let i := (i + 1) % 2 ^ 64
  path.drop i

/-- The text `os << n` writes for an `int`. -/
def showInt (n : Int) : StringRef := (toString n).toList

/-- The function `PrintStatistics` of the source: the text it writes. -/
def PrintStatistics (filename : StringRef) (bad_names : Int) : StringRef :=
  "===== Processed Stat ".toList ++ GetFilename filename ++ " =====\n".toList
    ++ ("Bad names found: ".toList ++ showInt bad_names ++ "\n".toList)

/-- The function `BadName` of the source: the text it writes. -/
def BadName (entity : Entity) (name filename : StringRef) (line : Int) : StringRef :=
  "Entity's name \"".toList ++ name ++ "\" does not meet the requirements (".toList
    ++ Str entity ++ ")\n".toList
    ++ ("In ".toList ++ GetFilename filename ++ " at line ".toList ++ showInt line
      ++ "\n\n".toList)

/-! ## The naming rules -/

/-- The method `IsCamelCase`: no character is an underscore. -/
def IsCamelCase : StringRef → Bool
  | [] => true
  | c :: cs => if c = '_' then false else IsCamelCase cs

/-- The method `IsCapitalized`: `name[0] == std::toupper(name[0])`. -/
def IsCapitalized (name : StringRef) : Option Bool :=
  match name[0]? with
  | none => none
  | some c => some (charToInt c == toupper (charToInt c))

/-- The method `IsConstant`: `name[0] == 'k'`. -/
def IsConstant (name : StringRef) : Option Bool :=
  match name[0]? with
  | none => none
  | some c => some (c == 'k')

/-- The method `IsField`: `name.back() == '_'`. -/
def IsField (name : StringRef) : Option Bool :=
  match name.getLast? with
  | none => none
  | some c => some (c == '_')

/-- The `for` loop of `IsSnakeCase` with the counter `length` of consecutive underscores. -/
def IsSnakeCase.loop : Nat → StringRef → Bool
  | _, [] => true
  | length, c :: cs =>
    if charToInt c ≠ tolower (charToInt c) || isdigit (charToInt c) then false
    else
      let length := if c = '_' then length + 1 else 0
      if length > 1 then false else IsSnakeCase.loop length cs

/-- The method `IsSnakeCase`. -/
def IsSnakeCase (name : StringRef) : Option Bool :=
  match name.head? with
  | none => none
  | some c => if c = '_' then some false else some (IsSnakeCase.loop 0 name)

/-- The method `IsUpperCase`: every character is its own upper-case form. -/
def IsUpperCase : StringRef → Bool
  | [] => true
  | c :: cs => if charToInt c ≠ toupper (charToInt c) then false else IsUpperCase cs

/-- The `for` loop of `IsUpperRule` with the counter `length`; `none` is the
`return false` inside the loop, `some length` the counter after the loop. -/
def IsUpperRule.loop : Nat → StringRef → Option Nat
  | length, [] => some length
  | length, c :: cs =>
    if charToInt c = toupper (charToInt c) && !isdigit (charToInt c) then
      IsUpperRule.loop (length + 1) cs
    else if length > 1 && length < 3 then none
    else IsUpperRule.loop 0 cs

/-- The method `IsUpperRule`. -/
def IsUpperRule (name : StringRef) : Bool :=
  match IsUpperRule.loop 0 name with
  | none => false
  | some length =>
    if length > 0 && length < 3 then false
    else length != name.length

/-- The operator `a && b` of the source on operands that may be undefined: `b` is
evaluated only when `a` is true. -/
def andThen (a b : Option Bool) : Option Bool :=
  match a with
  | some true => b
  | some false => some false
  | none => none

/-- The operator `a || b` of the source on operands that may be undefined: `b` is
evaluated only when `a` is false. -/
def orElse (a b : Option Bool) : Option Bool :=
  match a with
  | some true => some true
  | some false => b
  | none => none

/-- The method `CheckTypeName`. -/
def CheckTypeName (name : StringRef) : Option Bool :=
  orElse (some name.isEmpty)
    (andThen (andThen (IsCapitalized name) (some (IsCamelCase name))) (some (IsUpperRule name)))

/-- The method `CheckFunctionName`. -/
def CheckFunctionName (name : StringRef) : Option Bool :=
  if name = "main".toList then some true
  else
    orElse (some name.isEmpty)
      (andThen (andThen (IsCapitalized name) (some (IsCamelCase name))) (some (IsUpperRule name)))

/-- The method `CheckConstantName`. -/
def CheckConstantName (name : StringRef) : Option Bool :=
  orElse (some name.isEmpty) (andThen (IsConstant name) (some (IsCamelCase name)))

/-- The method `CheckEnumConstantName`. -/
def CheckEnumConstantName (name : StringRef) : Option Bool :=
  orElse (some name.isEmpty)
    (orElse (andThen (IsConstant name) (some (IsCamelCase name))) (some (IsUpperCase name)))

/-- The method `CheckVarName`. -/
def CheckVarName (name : StringRef) : Option Bool :=
  orElse (some name.isEmpty) (andThen ((IsField name).map not) (IsSnakeCase name))

/-- The method `CheckFieldName`. -/
def CheckFieldName (name : StringRef) : Option Bool :=
  orElse (some name.isEmpty) (andThen (IsField name) (IsSnakeCase name))

/-! ## Declarations as the visitor sees them -/

/-- The tag kind of a `TagDecl` (`TagTypeKind` of the front end). -/
inductive TagKind where
  | TTK_Struct
  | TTK_Interface
  | TTK_Union
  | TTK_Class
  | TTK_Enum
  deriving DecidableEq

/-- The query `TagDecl::isClass`. -/
def TagKind.isClass (k : TagKind) : Bool := k == TagKind.TTK_Class

/-- The query `TagDecl::isStruct`. -/
def TagKind.isStruct (k : TagKind) : Bool := k == TagKind.TTK_Struct

/-- What the handlers read from any `NamedDecl`: `getName()`, whether `getLocation()` is
in the main file, whether it is a macro id, and the file name and spelling line number of
`getLocStart()`. -/
structure NamedDecl where
  name : StringRef
  isInMainFile : Bool
  isMacroID : Bool
  filename : StringRef
  spellingLine : Nat

/-- A `FieldDecl`: the tag kind of `getParent()` and `getType().isConstQualified()`. -/
structure FieldDecl extends NamedDecl where
  parent : TagKind
  isConstQualified : Bool

/-- A `FunctionDecl`: whether it is a `CXXConstructorDecl`, and the string
`getNameInfo().getAsString()` that is read for a constructor. -/
structure FunctionDecl extends NamedDecl where
  isConstructor : Bool
  nameInfo : StringRef

/-- A `RecordDecl` with its tag kind. -/
structure RecordDecl extends NamedDecl where
  tagKind : TagKind

/-- A `VarDecl`: the tag kind of `getDeclContext()` when that is a `TagDecl`,
`getType().isConstQualified()` and `isConstexpr()`. -/
structure VarDecl extends NamedDecl where
  declContext : Option TagKind
  isConstQualified : Bool
  isConstexpr : Bool

/-! ## The visitor -/

/-- The method `ReportBadName(Entity, NamedDecl*)`: one record is pushed. -/
def ReportBadName (entity : Entity) (declaration : NamedDecl) (badnames : Queue) : Queue :=
  badnames ++ [⟨entity, declaration.name, declaration.filename, toInt declaration.spellingLine⟩]

/-- The method `ReportBadName(Entity, CXXConstructorDecl*, std::string)`. -/
def ReportBadNameCtor (entity : Entity) (declaration : NamedDecl) (method_name : StringRef)
    (badnames : Queue) : Queue :=
  badnames ++ [⟨entity, method_name, declaration.filename, toInt declaration.spellingLine⟩]

/-- The statement `if (!check) report;` where the check may be undefined. -/
def unlessOk (check : Option Bool) (report : Queue → Queue) (badnames : Queue) :
    Option Queue :=
  match check with
  | none => none
  | some true => some badnames
  | some false => some (report badnames)

/-- The method `VisitEnumConstantDecl`. -/
def VisitEnumConstantDecl (declaration : NamedDecl) (badnames : Queue) : Option Queue :=
  if !declaration.isInMainFile || declaration.isMacroID then some badnames
  else
    unlessOk (CheckEnumConstantName declaration.name)
      (ReportBadName Entity.kConst declaration) badnames

/-- The method `VisitEnumDecl`. -/
def VisitEnumDecl (declaration : NamedDecl) (badnames : Queue) : Option Queue :=
  if !declaration.isInMainFile || declaration.isMacroID then some badnames
  else
    unlessOk (CheckTypeName declaration.name)
      (ReportBadName Entity.kType declaration) badnames

/-- The method `VisitFieldDecl`. -/
def VisitFieldDecl (declaration : FieldDecl) (badnames : Queue) : Option Queue :=
  if !declaration.isInMainFile || declaration.isMacroID then some badnames
  else
    let name := declaration.name
    let is_class_member := declaration.parent.isClass
    let is_const := declaration.isConstQualified
    if is_const && is_class_member then
      unlessOk (CheckFieldName name)
        (ReportBadName Entity.kConst declaration.toNamedDecl) badnames
    else if is_class_member then
      unlessOk (CheckFieldName name)
        (ReportBadName Entity.kField declaration.toNamedDecl) badnames
    else
      unlessOk (CheckVarName name)
        (ReportBadName Entity.kVariable declaration.toNamedDecl) badnames

/-- The call `name.find(c)`: the index of the first `c`, `none` for `npos`. -/
def find (name : StringRef) (c : Char) : Option Nat :=
  if name.indexOf c < name.length then some (name.indexOf c) else none

/-- The method `VisitFunctionDecl`. -/
def VisitFunctionDecl (declaration : FunctionDecl) (badnames : Queue) : Option Queue :=
  if !declaration.isInMainFile || declaration.isMacroID then some badnames
  else if declaration.isConstructor then
    let name := declaration.nameInfo
    let name :=
      match find name '<' with
      | some pos => name.take pos
      | none => name
    unlessOk (CheckFunctionName name)
      (ReportBadNameCtor Entity.kFunction declaration.toNamedDecl name) badnames
  else
    let name := declaration.name
    unlessOk (CheckFunctionName name)
      (ReportBadName Entity.kFunction declaration.toNamedDecl) badnames

/-- The method `VisitRecordDecl`. -/
def VisitRecordDecl (declaration : RecordDecl) (badnames : Queue) : Option Queue :=
  if !declaration.isInMainFile || declaration.isMacroID then some badnames
  else
    unlessOk (CheckTypeName declaration.name)
      (ReportBadName Entity.kType declaration.toNamedDecl) badnames

/-- The method `VisitTypedefNameDecl`. -/
def VisitTypedefNameDecl (declaration : NamedDecl) (badnames : Queue) : Option Queue :=
  if !declaration.isInMainFile || declaration.isMacroID then some badnames
  else
    unlessOk (CheckTypeName declaration.name)
      (ReportBadName Entity.kType declaration) badnames

/-- The method `VisitVarDecl`. -/
def VisitVarDecl (declaration : VarDecl) (badnames : Queue) : Option Queue :=
  if !declaration.isInMainFile then some badnames
  else if declaration.isMacroID then some badnames
  else
    let tag := declaration.declContext
    let is_const := declaration.isConstQualified || declaration.isConstexpr
    let is_in_class := match tag with
      | some t => t.isClass
      | none => false
    let is_in_struct := match tag with
      | some t => t.isStruct
      | none => false
    if is_const && is_in_class then
      unlessOk (CheckConstantName declaration.name)
        (ReportBadName Entity.kConst declaration.toNamedDecl) badnames
    else if is_in_class then
      unlessOk (CheckFieldName declaration.name)
        (ReportBadName Entity.kField declaration.toNamedDecl) badnames
    else if is_const && (!is_in_struct || !is_in_class) then
      unlessOk (CheckConstantName declaration.name)
        (ReportBadName Entity.kConst declaration.toNamedDecl) badnames
    else
      unlessOk (CheckVarName declaration.name)
        (ReportBadName Entity.kVariable declaration.toNamedDecl) badnames

/-- A declaration met by the traversal, by the handler that `RecursiveASTVisitor`
calls for it. -/
inductive Decl where
  | enumConstant (d : NamedDecl)
  | enum (d : NamedDecl)
  | field (d : FieldDecl)
  | function (d : FunctionDecl)
  | record (d : RecordDecl)
  | typedefName (d : NamedDecl)
  | var (d : VarDecl)

/-- The `NamedDecl` part of a declaration. -/
def Decl.named : Decl → NamedDecl
  | Decl.enumConstant d => d
  | Decl.enum d => d
  | Decl.field d => d.toNamedDecl
  | Decl.function d => d.toNamedDecl
  | Decl.record d => d.toNamedDecl
  | Decl.typedefName d => d
  | Decl.var d => d.toNamedDecl

/-- The dispatch of one declaration to its handler. -/
def Visit (d : Decl) (badnames : Queue) : Option Queue :=
  match d with
  | Decl.enumConstant d => VisitEnumConstantDecl d badnames
  | Decl.enum d => VisitEnumDecl d badnames
  | Decl.field d => VisitFieldDecl d badnames
  | Decl.function d => VisitFunctionDecl d badnames
  | Decl.record d => VisitRecordDecl d badnames
  | Decl.typedefName d => VisitTypedefNameDecl d badnames
  | Decl.var d => VisitVarDecl d badnames

/-- The traversal of `HandleTranslationUnit`: the declarations are visited in order. -/
def HandleTranslationUnit : List Decl → Queue → Option Queue
  | [], badnames => some badnames
  | d :: ds, badnames =>
    match Visit d badnames with
    | none => none
    | some badnames => HandleTranslationUnit ds badnames

/-! ## The report -/

/-- The `while (!badnames_.empty())` loop of `EndSourceFileAction`: the queue that is
left and the text written. -/
def EndSourceFileAction.loop : Queue → StringRef → Queue × StringRef
  | [], os => ([], os)
  | el :: badnames, os =>
    EndSourceFileAction.loop badnames (os ++ BadName el.entity el.name el.filename el.line)

/-- The method `EndSourceFileAction`: the queue it leaves and the text it writes. -/
def EndSourceFileAction (filename_ : StringRef) (badnames_ : Queue) : Queue × StringRef :=
  let nobadnames := badnames_.length % 2 ^ 64
  let r := EndSourceFileAction.loop badnames_ []
  (r.1, r.2 ++ PrintStatistics filename_ (toInt nobadnames))

/-! ## Acronym runs, as the specification words them -/

/-- A character that counts in an acronym run: a non-digit equal to its own upper-case
form, by the test `c == std::toupper(c) && !std::isdigit(c)` of the source. -/
def qualifies (c : Char) : Bool :=
  charToInt c == toupper (charToInt c) && !isdigit (charToInt c)

/-- The lengths of the maximal runs of consecutive qualifying characters of `s`, from
left to right: `s` is cut at every non-qualifying character and the non-empty pieces
are the runs. -/
def maximalRuns (s : StringRef) : List Nat :=
  ((s.splitOnP (fun c => !qualifies c)).map List.length).filter (fun n => n ≠ 0)

/-- The name a handler reads from a declaration: `getNameInfo().getAsString()` for a
constructor, `getName()` otherwise. -/
def Decl.readName : Decl → StringRef
  | Decl.function d => if d.isConstructor then d.nameInfo else d.name
  | d => d.named.name

/-- The test `mgr.isInMainFile(loc) && !loc.isMacroID()` under which a handler goes on
to check the declaration. -/
def Decl.isChecked (d : Decl) : Bool := d.named.isInMainFile && !d.named.isMacroID

/-- A main-file declaration of `example.cc` that does not come from a macro. -/
def exampleDecl (name : String) (line : Nat) : NamedDecl :=
  ⟨name.toList, true, false, "example.cc".toList, line⟩

/-- The record `struct JustAStruct` of `example.cc`, line 34. -/
def exJustAStruct : RecordDecl := ⟨exampleDecl "JustAStruct" 34, TagKind.TTK_Struct⟩

/-- The field `int ok_field;` of `JustAStruct`, line 35. -/
def exOkField : FieldDecl := ⟨exampleDecl "ok_field" 35, TagKind.TTK_Struct, false⟩

/-- The field `int bad_field_;` of `JustAStruct`, line 36. -/
def exBadField : FieldDecl := ⟨exampleDecl "bad_field_" 36, TagKind.TTK_Struct, false⟩

/-- A field `const int kGood;` declared in a class. -/
def exConstClassField : FieldDecl := ⟨exampleDecl "kGood" 25, TagKind.TTK_Class, true⟩

/-- A field `const int bad;` declared in a class. -/
def exBadConstClassField : FieldDecl := ⟨exampleDecl "bad" 26, TagKind.TTK_Class, true⟩

/-- The anonymous `struct` of `main` in `example.cc`, line 84. -/
def exAnonymousStruct : RecordDecl := ⟨exampleDecl "" 84, TagKind.TTK_Struct⟩

/-- A declaration of an included header, outside the main file. -/
def exHeaderVar : VarDecl :=
  ⟨⟨"cout".toList, false, false, "iostream".toList, 61⟩, none, false, false⟩

/-- A declaration stream for `struct JustAStruct` with its fields `ok_field` and
`bad_field_`, preceded by a declaration of an included header. -/
def exJustAStructStream : List Decl :=
  [Decl.var exHeaderVar, Decl.record exJustAStruct, Decl.field exOkField,
    Decl.field exBadField]

/-! ## The report, as the output contract words it -/

/-- The diagnostic block of one record: the line with the quoted name and the label of
the entity, the line with the base name of the file and the line number, and the empty
line. -/
def diagnosticBlock (r : BadNameEntry) : StringRef :=
  "Entity's name \"".toList ++ (r.name ++ ("\" does not meet the requirements (".toList
    ++ (Str r.entity ++ (")\nIn ".toList ++ (GetFilename r.filename ++ (" at line ".toList
    ++ (showInt r.line ++ "\n\n".toList)))))))

/-- The summary block of a pass over the file `f` with `n` bad names, `n` written in
decimal. -/
def summaryBlock (f : StringRef) (n : Nat) : StringRef :=
  "===== Processed Stat ".toList ++ (GetFilename f
    ++ (" =====\nBad names found: ".toList ++ ((toString n).toList ++ "\n".toList)))

/-- The text of a report: one diagnostic block per record, in the order of the queue,
then the summary block with the number of records. -/
def expectedReport (f : StringRef) (badnames : Queue) : StringRef :=
  (badnames.map diagnosticBlock).flatten ++ summaryBlock f badnames.length

/-- A record for the field `x` at line 1 of `a.cc`. -/
def exRecord : BadNameEntry := ⟨Entity.kField, "x".toList, "a.cc".toList, 1⟩

/-! ## The visitor in one table -/

/-- The name that the handler of a declaration validates and stores: for a constructor
the string `getNameInfo().getAsString()` cut by `substr(0, pos)` at the position found
for `<`, for every other declaration `getName()`. -/
def Decl.checkedName : Decl → StringRef
  | Decl.function d =>
    if d.isConstructor then
      match find d.nameInfo '<' with
      | some pos => d.nameInfo.take pos
      | none => d.nameInfo
    else d.name
  | d => d.named.name

/-- The validator that the handler of a declaration calls on the checked name. -/
def Decl.validate : Decl → Option Bool
  | Decl.enumConstant d => CheckEnumConstantName d.name
  | Decl.enum d => CheckTypeName d.name
  | Decl.field d =>
    if d.parent.isClass then CheckFieldName d.name else CheckVarName d.name
  | Decl.function d => CheckFunctionName (Decl.function d).checkedName
  | Decl.record d => CheckTypeName d.name
  | Decl.typedefName d => CheckTypeName d.name
  | Decl.var d =>
    if d.isConstQualified || d.isConstexpr then CheckConstantName d.name
    else if (match d.declContext with | some t => t.isClass | none => false) then
      CheckFieldName d.name
    else CheckVarName d.name

/-- The entity under which the handler of a declaration reports. -/
def Decl.entity : Decl → Entity
  | Decl.enumConstant _ => Entity.kConst
  | Decl.enum _ => Entity.kType
  | Decl.field d =>
    if d.parent.isClass then
      if d.isConstQualified then Entity.kConst else Entity.kField
    else Entity.kVariable
  | Decl.function _ => Entity.kFunction
  | Decl.record _ => Entity.kType
  | Decl.typedefName _ => Entity.kType
  | Decl.var d =>
    if d.isConstQualified || d.isConstexpr then Entity.kConst
    else if (match d.declContext with | some t => t.isClass | none => false) then
      Entity.kField
    else Entity.kVariable

/-- The record that the handler of a declaration pushes when the validation fails. -/
def Decl.entry (d : Decl) : BadNameEntry :=
  ⟨d.entity, d.checkedName, d.named.filename, toInt d.named.spellingLine⟩

/-- Whether the handler of a declaration pushes a record: the declaration is in the main
file, not from a macro, and its validator returns false. -/
def Decl.fails (d : Decl) : Bool := d.isChecked && d.validate == some false

/-- The text of a constructor name before its template arguments: the characters before
the first `<`. -/
def beforeTemplateArguments (n : StringRef) : StringRef := n.takeWhile (fun c => c != '<')

/-- A variable `int Wrong;` declared in a macro expansion of the main file. -/
def exMacroVar : VarDecl :=
  ⟨⟨"Wrong".toList, true, true, "example.cc".toList, 80⟩, none, false, false⟩

/-- The variable `char Wrong` of `main` in `example.cc`, line 80. -/
def exWrongVar : VarDecl := ⟨exampleDecl "Wrong" 80, none, false, false⟩

/-- The constant `static const int kBad_` of `class Test` in `example.cc`, line 26. -/
def exBadConstVar : VarDecl := ⟨exampleDecl "kBad_" 26, some TagKind.TTK_Class, true, false⟩

/-- A constructor of a class template, named `vec<T>`. -/
def exTemplateCtor : FunctionDecl :=
  ⟨exampleDecl "" 11, true, "vec<T>".toList⟩

/-- The local `is_const` of `VisitVarDecl`. -/
def VarDecl.is_const (d : VarDecl) : Bool := d.isConstQualified || d.isConstexpr

/-- The local `is_in_class` of `VisitVarDecl`. -/
def VarDecl.is_in_class (d : VarDecl) : Bool :=
  match d.declContext with
  | some t => t.isClass
  | none => false

/-- The local `is_in_struct` of `VisitVarDecl`. -/
def VarDecl.is_in_struct (d : VarDecl) : Bool :=
  match d.declContext with
  | some t => t.isStruct
  | none => false

/-- A variable `static int Bad;` declared in a struct. -/
def exStructVar : VarDecl := ⟨exampleDecl "Bad" 27, some TagKind.TTK_Struct, false, false⟩

theorem charToInt_range (c : Char) : -128 ≤ charToInt c ∧ charToInt c ≤ 127 := by
  unfold charToInt
  split
  · omega
  · split <;> omega

/-- On an ASCII character the test `c == std::toupper(c)` says that `c` is not a
lower-case letter. -/
theorem toupper_ascii (c : Char) (h : c.toNat < 128) :
    charToInt c = toupper (charToInt c) ↔ ¬ (97 ≤ c.toNat ∧ c.toNat ≤ 122) := by
  unfold toupper charToInt
  simp only [h, if_true]
  split <;> omega

/-- On a character that is not ASCII, the byte 0xFF apart, the test
`c == std::toupper(c)` fails: the `char` is negative and `std::toupper` returns the byte
as an unsigned value. -/
theorem toupper_high (c : Char) (h : 128 ≤ c.toNat) (h2 : c.toNat ≠ 255) :
    charToInt c ≠ toupper (charToInt c) := by
  unfold toupper charToInt
  split
  · omega
  · split
    · split
      · omega
      · split <;> omega
    · split
      · omega
      · split <;> omega

/-- On an ASCII character the test `c != std::tolower(c)` says that `c` is an upper-case
letter. -/
theorem tolower_ascii (c : Char) (h : c.toNat < 128) :
    charToInt c = tolower (charToInt c) ↔ ¬ (65 ≤ c.toNat ∧ c.toNat ≤ 90) := by
  unfold tolower charToInt
  simp only [h, if_true]
  split <;> omega

/-- On a character that is not ASCII, the byte 0xFF apart, the test
`c != std::tolower(c)` holds. -/
theorem tolower_high (c : Char) (h : 128 ≤ c.toNat) (h2 : c.toNat ≠ 255) :
    charToInt c ≠ tolower (charToInt c) := by
  unfold tolower charToInt
  split
  · omega
  · split
    · split
      · omega
      · split <;> omega
    · split
      · omega
      · split <;> omega

/-- The test `std::isdigit(c)` holds of the ten ASCII digits only. -/
theorem isdigit_iff (c : Char) :
    isdigit (charToInt c) = true ↔ 48 ≤ c.toNat ∧ c.toNat ≤ 57 := by
  unfold isdigit charToInt
  simp only [decide_eq_true_eq]
  split
  · omega
  · split <;> omega

/-- The tests of the source at the bytes of `é` and `É` in UTF-8, at a lower-case and
an upper-case letter, at a digit and at the byte 0xFF. -/
theorem character_tests :
    qualifies '\xc3' = false ∧ qualifies '\xa9' = false ∧ qualifies '\x89' = false
    ∧ qualifies 'a' = false ∧ qualifies 'A' = true ∧ qualifies '_' = true
    ∧ qualifies '2' = false ∧ qualifies '\xff' = true
    ∧ charToInt '\xc3' = -61 ∧ toupper (-61) = 195 ∧ tolower (-61) = 195
    ∧ toupper (-1) = -1 ∧ toupper 97 = 65 ∧ tolower 65 = 97 := by
  decide

/-- C2 (as amended): `IsUpperRule "ABCase"` is true, its leading run `ABC` having
length 3, and `IsUpperRule "ABCCase"` is true. -/
theorem IsUpperRule_ABCase :
    IsUpperRule "ABCase".toList = true ∧ maximalRuns "ABCase".toList = [3]
    ∧ IsUpperRule "ABCCase".toList = true := by
  decide

/-- C2 (as stated) fails: `IsUpperRule "ABCase"` is not false. -/
theorem IsUpperRule_ABCase_counterexample :
    ¬ (IsUpperRule "ABCase".toList = false ∧ IsUpperRule "ABCCase".toList = true) := by
  decide

/-! ### The validators are total -/

theorem IsField_cons (c : Char) (cs : StringRef) :
    IsField (c :: cs) = some ((c :: cs).getLast (List.cons_ne_nil c cs) == '_') := by
  unfold IsField
  rw [List.getLast?_eq_getLast _ (List.cons_ne_nil c cs)]

theorem CheckTypeName_cons (c : Char) (cs : StringRef) :
    CheckTypeName (c :: cs)
      = some ((charToInt c == toupper (charToInt c)) && IsCamelCase (c :: cs)
          && IsUpperRule (c :: cs)) := by
  cases h1 : charToInt c == toupper (charToInt c) <;> cases h2 : IsCamelCase (c :: cs) <;>
    cases h3 : IsUpperRule (c :: cs) <;>
    simp [CheckTypeName, IsCapitalized, orElse, andThen, h1, h2, h3]

theorem CheckConstantName_cons (c : Char) (cs : StringRef) :
    CheckConstantName (c :: cs) = some ((c == 'k') && IsCamelCase (c :: cs)) := by
  cases h1 : c == 'k' <;> cases h2 : IsCamelCase (c :: cs) <;>
    simp [CheckConstantName, IsConstant, orElse, andThen, h1, h2]

theorem CheckEnumConstantName_cons (c : Char) (cs : StringRef) :
    CheckEnumConstantName (c :: cs)
      = some (((c == 'k') && IsCamelCase (c :: cs)) || IsUpperCase (c :: cs)) := by
  cases h1 : c == 'k' <;> cases h2 : IsCamelCase (c :: cs) <;>
    cases h3 : IsUpperCase (c :: cs) <;>
    simp [CheckEnumConstantName, IsConstant, orElse, andThen, h1, h2, h3]

theorem CheckVarName_cons (c : Char) (cs : StringRef) :
    CheckVarName (c :: cs)
      = some (!((c :: cs).getLast (List.cons_ne_nil c cs) == '_')
          && (!(c == '_') && IsSnakeCase.loop 0 (c :: cs))) := by
  unfold CheckVarName
  rw [IsField_cons]
  cases h1 : (c :: cs).getLast (List.cons_ne_nil c cs) == '_' <;> cases h2 : c == '_' <;>
    cases h3 : IsSnakeCase.loop 0 (c :: cs) <;>
    simp_all [IsSnakeCase, orElse, andThen]

theorem CheckFieldName_cons (c : Char) (cs : StringRef) :
    CheckFieldName (c :: cs)
      = some (((c :: cs).getLast (List.cons_ne_nil c cs) == '_')
          && (!(c == '_') && IsSnakeCase.loop 0 (c :: cs))) := by
  unfold CheckFieldName
  rw [IsField_cons]
  cases h1 : (c :: cs).getLast (List.cons_ne_nil c cs) == '_' <;> cases h2 : c == '_' <;>
    cases h3 : IsSnakeCase.loop 0 (c :: cs) <;>
    simp_all [IsSnakeCase, orElse, andThen]

theorem CheckTypeName_total (name : StringRef) : ∃ b, CheckTypeName name = some b := by
  cases name with
  | nil => exact ⟨true, rfl⟩
  | cons c cs => exact ⟨_, CheckTypeName_cons c cs⟩

theorem CheckFunctionName_total (name : StringRef) :
    ∃ b, CheckFunctionName name = some b := by
  unfold CheckFunctionName
  split
  · exact ⟨true, rfl⟩
  · exact CheckTypeName_total name

theorem CheckConstantName_total (name : StringRef) :
    ∃ b, CheckConstantName name = some b := by
  cases name with
  | nil => exact ⟨true, rfl⟩
  | cons c cs => exact ⟨_, CheckConstantName_cons c cs⟩

theorem CheckEnumConstantName_total (name : StringRef) :
    ∃ b, CheckEnumConstantName name = some b := by
  cases name with
  | nil => exact ⟨true, rfl⟩
  | cons c cs => exact ⟨_, CheckEnumConstantName_cons c cs⟩

theorem CheckVarName_total (name : StringRef) : ∃ b, CheckVarName name = some b := by
  cases name with
  | nil => exact ⟨true, rfl⟩
  | cons c cs => exact ⟨_, CheckVarName_cons c cs⟩

theorem CheckFieldName_total (name : StringRef) : ∃ b, CheckFieldName name = some b := by
  cases name with
  | nil => exact ⟨true, rfl⟩
  | cons c cs => exact ⟨_, CheckFieldName_cons c cs⟩

/-- The statement `if (!check) report;` on a defined check. -/
theorem unlessOk_some (b : Bool) (report : Queue → Queue) (badnames : Queue) :
    unlessOk (some b) report badnames
      = some (if b = false then report badnames else badnames) := by
  cases b <;> rfl

/-- The Variable rule fails exactly on a non-empty name that ends in an underscore or
is not snake case. -/
theorem CheckVarName_false_iff (name : StringRef) :
    CheckVarName name = some false
      ↔ name ≠ [] ∧ ¬ (IsField name = some false ∧ IsSnakeCase name = some true) := by
  cases name with
  | nil => simp [CheckVarName, orElse]
  | cons c cs =>
    rw [CheckVarName_cons, IsField_cons]
    cases h1 : (c :: cs).getLast (List.cons_ne_nil c cs) == '_' <;> cases h2 : c == '_' <;>
      cases h3 : IsSnakeCase.loop 0 (c :: cs) <;>
      simp_all [IsSnakeCase]

/-! ### Fields -/

/-- C3 (as amended): a non-const field of a struct, in the main file and not from a
macro, is checked with the Variable rule. `VisitFieldDecl` pushes one record exactly when
the name fails `CheckVarName`, that is when the name is non-empty and fails
`¬IsField ∧ IsSnakeCase`, and the record has the category `Entity::kVariable`, whose
label is "variable". -/
theorem VisitFieldDecl_struct (d : FieldDecl) (badnames : Queue)
    (hmain : d.isInMainFile = true) (hmac : d.isMacroID = false)
    (hstruct : d.parent = TagKind.TTK_Struct) (hconst : d.isConstQualified = false) :
    VisitFieldDecl d badnames
        = some (if CheckVarName d.name = some false
            then badnames ++ [⟨Entity.kVariable, d.name, d.filename, toInt d.spellingLine⟩]
            else badnames)
      ∧ (CheckVarName d.name = some false
          ↔ d.name ≠ [] ∧ ¬ (IsField d.name = some false ∧ IsSnakeCase d.name = some true))
      ∧ Str Entity.kVariable = "variable".toList := by
  refine ⟨?_, CheckVarName_false_iff d.name, rfl⟩
  obtain ⟨b, hb⟩ := CheckVarName_total d.name
  unfold VisitFieldDecl
  simp only [hmain, hmac, hstruct, hconst, hb, unlessOk_some, ReportBadName]
  cases b <;> simp [TagKind.isClass]

/-- C3, witness: the field `bad_field_` of `JustAStruct`. -/
theorem VisitFieldDecl_struct_witness :
    VisitFieldDecl exBadField []
        = some (if CheckVarName exBadField.name = some false
            then [] ++ [⟨Entity.kVariable, exBadField.name, exBadField.filename,
              toInt exBadField.spellingLine⟩]
            else [])
      ∧ (CheckVarName exBadField.name = some false
          ↔ exBadField.name ≠ []
            ∧ ¬ (IsField exBadField.name = some false
              ∧ IsSnakeCase exBadField.name = some true))
      ∧ Str Entity.kVariable = "variable".toList :=
  VisitFieldDecl_struct exBadField [] rfl rfl rfl rfl

/-- C3 (as stated) fails: the struct field `ok_field` is non-empty and fails the Field
rule, yet nothing is recorded for it; the struct field `bad_field_` passes the Field
rule, yet a record is pushed for it, with the category `Entity::kVariable`. -/
theorem VisitFieldDecl_struct_counterexample :
    ¬ (VisitFieldDecl exOkField [] ≠ some []
        ↔ (exOkField.name ≠ [] ∧ CheckFieldName exOkField.name = some false))
    ∧ CheckFieldName exOkField.name = some false
    ∧ VisitFieldDecl exOkField [] = some []
    ∧ CheckFieldName exBadField.name = some true
    ∧ VisitFieldDecl exBadField []
        = some [⟨Entity.kVariable, "bad_field_".toList, "example.cc".toList, 36⟩] := by
  decide

/-- C4 at its failing input: the const class field `kGood` passes the Constant rule
and fails the Field rule, and `VisitFieldDecl`, which applies `CheckFieldName` on this
branch, pushes a record for it. -/
theorem VisitFieldDecl_const_class_kGood :
    exConstClassField.isConstQualified = true
    ∧ exConstClassField.parent.isClass = true
    ∧ CheckConstantName exConstClassField.name = some true
    ∧ CheckFieldName exConstClassField.name = some false
    ∧ VisitFieldDecl exConstClassField []
        = some [⟨Entity.kConst, "kGood".toList, "example.cc".toList, 25⟩] := by
  decide

/-- C8: whatever `VisitFieldDecl` pushes for a const-qualified field of a class has the
category `Entity::kConst` (label "const"), never `Entity::kField`: the queue is left as
it was or gets the single record of that category. -/
theorem VisitFieldDecl_const_class_entity (d : FieldDecl) (badnames : Queue)
    (hconst : d.isConstQualified = true) (hclass : d.parent = TagKind.TTK_Class) :
    ∃ pushed, VisitFieldDecl d badnames = some (badnames ++ pushed)
      ∧ (pushed = []
          ∨ pushed = [⟨Entity.kConst, d.name, d.filename, toInt d.spellingLine⟩])
      ∧ (∀ r ∈ pushed, r.entity = Entity.kConst ∧ r.entity ≠ Entity.kField
          ∧ Str r.entity = "const".toList) := by
  obtain ⟨b, hb⟩ := CheckFieldName_total d.name
  unfold VisitFieldDecl
  by_cases hskip : (!d.isInMainFile || d.isMacroID) = true
  · exact ⟨[], by simp [hskip], Or.inl rfl, by simp⟩
  · cases b
    · refine ⟨[⟨Entity.kConst, d.name, d.filename, toInt d.spellingLine⟩], ?_,
        Or.inr rfl, ?_⟩
      · simp [hskip, hconst, hclass, TagKind.isClass, hb, unlessOk, ReportBadName]
      · intro r hr
        rw [List.mem_singleton] at hr
        subst hr
        exact ⟨rfl, fun h => Entity.noConfusion h, rfl⟩
    · exact ⟨[], by simp [hskip, hconst, hclass, TagKind.isClass, hb, unlessOk],
        Or.inl rfl, by simp⟩

/-- C8, witness: the const class field `bad`, for which a record is pushed. -/
theorem VisitFieldDecl_const_class_entity_witness :
    (∃ pushed, VisitFieldDecl exBadConstClassField [] = some ([] ++ pushed)
      ∧ (pushed = []
          ∨ pushed = [⟨Entity.kConst, exBadConstClassField.name,
              exBadConstClassField.filename, toInt exBadConstClassField.spellingLine⟩])
      ∧ (∀ r ∈ pushed, r.entity = Entity.kConst ∧ r.entity ≠ Entity.kField
          ∧ Str r.entity = "const".toList))
    ∧ VisitFieldDecl exBadConstClassField []
        = some [⟨Entity.kConst, "bad".toList, "example.cc".toList, 26⟩] :=
  ⟨VisitFieldDecl_const_class_entity exBadConstClassField [] rfl rfl, by decide⟩

/-! ### Declarations outside the main file or from a macro -/

theorem Visit_not_checked (d : Decl) (badnames : Queue) (h : d.isChecked = false) :
    Visit d badnames = some badnames := by
  cases d with
  | var d =>
    simp only [Decl.isChecked, Decl.named] at h
    cases hm : d.isInMainFile <;> cases hi : d.isMacroID <;>
      simp_all [Visit, VisitVarDecl]
  | _ d =>
    simp only [Decl.isChecked, Decl.named] at h
    cases hm : d.isInMainFile <;> cases hi : d.isMacroID <;>
      simp_all [Visit, VisitEnumConstantDecl, VisitEnumDecl, VisitFieldDecl,
        VisitFunctionDecl, VisitRecordDecl, VisitTypedefNameDecl]

theorem HandleTranslationUnit_filter (ds : List Decl) (badnames : Queue) :
    HandleTranslationUnit ds badnames
      = HandleTranslationUnit (ds.filter Decl.isChecked) badnames := by
  induction ds generalizing badnames with
  | nil => rfl
  | cons d ds ih =>
    cases h : d.isChecked
    · rw [List.filter_cons_of_neg (by simp [h])]
      simp only [HandleTranslationUnit, Visit_not_checked d badnames h]
      exact ih badnames
    · rw [List.filter_cons_of_pos (by simp [h])]
      simp only [HandleTranslationUnit]
      cases Visit d badnames with
      | none => rfl
      | some q => exact ih q

theorem isChecked_iff (d : Decl) :
    d.isChecked = true ↔ d.named.isInMainFile = true ∧ d.named.isMacroID = false := by
  simp [Decl.isChecked]

/-! ### End to end: `struct JustAStruct` -/

/-- A record that is checked goes through `CheckTypeName`. -/
theorem VisitRecordDecl_checked (d : RecordDecl) (badnames : Queue)
    (hmain : d.isInMainFile = true) (hmac : d.isMacroID = false) :
    VisitRecordDecl d badnames
      = unlessOk (CheckTypeName d.name) (ReportBadName Entity.kType d.toNamedDecl) badnames := by
  simp [VisitRecordDecl, hmain, hmac]

/-- A checked non-const field outside a class goes through `CheckVarName`. -/
theorem VisitFieldDecl_checked_struct (d : FieldDecl) (badnames : Queue)
    (hmain : d.isInMainFile = true) (hmac : d.isMacroID = false)
    (hstruct : d.parent = TagKind.TTK_Struct) (hconst : d.isConstQualified = false) :
    VisitFieldDecl d badnames
      = unlessOk (CheckVarName d.name) (ReportBadName Entity.kVariable d.toNamedDecl)
          badnames := by
  simp [VisitFieldDecl, hmain, hmac, hstruct, hconst, TagKind.isClass]

/-- C5 (as amended): for a declaration stream whose only main-file, non-macro declarations
are a struct named `JustAStruct` and two non-const fields `ok_field` and `bad_field_` of
a struct, in that order, the queue after the traversal holds exactly two records, the
first with name `JustAStruct` and category Type, the second with name `bad_field_` and
category Variable; the drain empties the queue and prints the two diagnostics (labels
"type" and "variable") followed by the summary, which ends in "Bad names found: 2". -/
theorem JustAStruct_end_to_end (ds : List Decl) (r : RecordDecl) (f g : FieldDecl)
    (filename_ : StringRef)
    (hds : ds.filter Decl.isChecked = [Decl.record r, Decl.field f, Decl.field g])
    (hr : r.name = "JustAStruct".toList) (_hrk : r.tagKind = TagKind.TTK_Struct)
    (hf : f.name = "ok_field".toList) (hfp : f.parent = TagKind.TTK_Struct)
    (hfc : f.isConstQualified = false)
    (hg : g.name = "bad_field_".toList) (hgp : g.parent = TagKind.TTK_Struct)
    (hgc : g.isConstQualified = false) :
    HandleTranslationUnit ds []
        = some [⟨Entity.kType, "JustAStruct".toList, r.filename, toInt r.spellingLine⟩,
            ⟨Entity.kVariable, "bad_field_".toList, g.filename, toInt g.spellingLine⟩]
      ∧ EndSourceFileAction filename_
          [⟨Entity.kType, "JustAStruct".toList, r.filename, toInt r.spellingLine⟩,
            ⟨Entity.kVariable, "bad_field_".toList, g.filename, toInt g.spellingLine⟩]
        = ([],
            BadName Entity.kType "JustAStruct".toList r.filename (toInt r.spellingLine)
            ++ BadName Entity.kVariable "bad_field_".toList g.filename (toInt g.spellingLine)
            ++ ("===== Processed Stat ".toList ++ GetFilename filename_
              ++ " =====\n".toList ++ "Bad names found: 2\n".toList))
      ∧ Str Entity.kType = "type".toList ∧ Str Entity.kVariable = "variable".toList := by
  have hmem : ∀ d ∈ [Decl.record r, Decl.field f, Decl.field g], d.isChecked = true := by
    intro d hd
    rw [← hds] at hd
    exact (List.mem_filter.mp hd).2
  obtain ⟨hr1, hr2⟩ := (isChecked_iff _).mp (hmem (Decl.record r) (by simp))
  obtain ⟨hf1, hf2⟩ := (isChecked_iff _).mp (hmem (Decl.field f) (by simp))
  obtain ⟨hg1, hg2⟩ := (isChecked_iff _).mp (hmem (Decl.field g) (by simp))
  simp only [Decl.named] at hr1 hr2 hf1 hf2 hg1 hg2
  have c1 : CheckTypeName "JustAStruct".toList = some false := by decide
  have c2 : CheckVarName "ok_field".toList = some true := by decide
  have c3 : CheckVarName "bad_field_".toList = some false := by decide
  have n2 : toInt (2 % 2 ^ 64) = 2 := by decide
  have s2 : "Bad names found: ".toList ++ showInt 2 ++ "\n".toList
      = "Bad names found: 2\n".toList := by decide
  refine ⟨?_, ?_, rfl, rfl⟩
  · rw [HandleTranslationUnit_filter, hds]
    simp only [HandleTranslationUnit, Visit]
    rw [VisitRecordDecl_checked r _ hr1 hr2, hr, c1]
    simp only [unlessOk]
    rw [VisitFieldDecl_checked_struct f _ hf1 hf2 hfp hfc, hf, c2]
    simp only [unlessOk]
    rw [VisitFieldDecl_checked_struct g _ hg1 hg2 hgp hgc, hg, c3]
    simp only [unlessOk, ReportBadName, hr, hg, List.nil_append, List.cons_append]
  · simp only [EndSourceFileAction, EndSourceFileAction.loop, PrintStatistics,
      List.length_cons, List.length_nil, Nat.zero_add, Nat.reduceAdd, n2, s2,
      List.nil_append]

/-- C5, witness: the stream of `example.cc` for `JustAStruct`, with a declaration of an
included header before it. -/
theorem JustAStruct_end_to_end_witness :
    HandleTranslationUnit exJustAStructStream []
        = some [⟨Entity.kType, "JustAStruct".toList, exJustAStruct.filename,
              toInt exJustAStruct.spellingLine⟩,
            ⟨Entity.kVariable, "bad_field_".toList, exBadField.filename,
              toInt exBadField.spellingLine⟩]
      ∧ EndSourceFileAction "/src/example.cc".toList
          [⟨Entity.kType, "JustAStruct".toList, exJustAStruct.filename,
              toInt exJustAStruct.spellingLine⟩,
            ⟨Entity.kVariable, "bad_field_".toList, exBadField.filename,
              toInt exBadField.spellingLine⟩]
        = ([],
            BadName Entity.kType "JustAStruct".toList exJustAStruct.filename
              (toInt exJustAStruct.spellingLine)
            ++ BadName Entity.kVariable "bad_field_".toList exBadField.filename
              (toInt exBadField.spellingLine)
            ++ ("===== Processed Stat ".toList ++ GetFilename "/src/example.cc".toList
              ++ " =====\n".toList ++ "Bad names found: 2\n".toList))
      ∧ Str Entity.kType = "type".toList ∧ Str Entity.kVariable = "variable".toList :=
  JustAStruct_end_to_end exJustAStructStream exJustAStruct exOkField exBadField
    "/src/example.cc".toList rfl rfl rfl rfl rfl rfl rfl rfl rfl

/-- C5 (as stated) fails: on the stream of `JustAStruct` with its two fields the queue
holds two records, for `JustAStruct` (Type) and `bad_field_` (Variable), not the single
record (`ok_field`, Field), and the summary reads "Bad names found: 2". -/
theorem JustAStruct_end_to_end_counterexample :
    HandleTranslationUnit
        [Decl.record exJustAStruct, Decl.field exOkField, Decl.field exBadField] []
      = some [⟨Entity.kType, "JustAStruct".toList, "example.cc".toList, 34⟩,
          ⟨Entity.kVariable, "bad_field_".toList, "example.cc".toList, 36⟩]
    ∧ ¬ (∃ rec, HandleTranslationUnit
          [Decl.record exJustAStruct, Decl.field exOkField, Decl.field exBadField] []
            = some [rec]
        ∧ rec.name = "ok_field".toList ∧ rec.entity = Entity.kField)
    ∧ (EndSourceFileAction "example.cc".toList
          [⟨Entity.kType, "JustAStruct".toList, "example.cc".toList, 34⟩,
            ⟨Entity.kVariable, "bad_field_".toList, "example.cc".toList, 36⟩]).2
      = ("Entity's name \"JustAStruct\" does not meet the requirements (type)\n"
          ++ "In example.cc at line 34\n\n"
          ++ "Entity's name \"bad_field_\" does not meet the requirements (variable)\n"
          ++ "In example.cc at line 36\n\n"
          ++ "===== Processed Stat example.cc =====\nBad names found: 2\n").toList := by
  have h : HandleTranslationUnit
        [Decl.record exJustAStruct, Decl.field exOkField, Decl.field exBadField] []
      = some [⟨Entity.kType, "JustAStruct".toList, "example.cc".toList, 34⟩,
          ⟨Entity.kVariable, "bad_field_".toList, "example.cc".toList, 36⟩] := by
    decide
  refine ⟨h, ?_, by rfl⟩
  rintro ⟨rec, hrec, -⟩
  rw [h] at hrec
  simp at hrec

/-! ### Snake case -/

/-- C7: on the empty name the six validators return true although the predicates that
read the first or the last character are undefined there, and no handler pushes a record
for a declaration whose name is empty. -/
theorem empty_name_is_valid (d : Decl) (badnames : Queue) (hname : d.readName = []) :
    CheckTypeName [] = some true ∧ CheckFunctionName [] = some true
    ∧ CheckConstantName [] = some true ∧ CheckEnumConstantName [] = some true
    ∧ CheckVarName [] = some true ∧ CheckFieldName [] = some true
    ∧ IsCapitalized [] = none ∧ IsConstant [] = none ∧ IsField [] = none
    ∧ IsSnakeCase [] = none
    ∧ Visit d badnames = some badnames := by
  refine ⟨rfl, rfl, rfl, rfl, rfl, rfl, rfl, rfl, rfl, rfl, ?_⟩
  have t : CheckTypeName [] = some true := rfl
  have fn : CheckFunctionName [] = some true := rfl
  have k : CheckConstantName [] = some true := rfl
  have e : CheckEnumConstantName [] = some true := rfl
  have v : CheckVarName [] = some true := rfl
  have fd : CheckFieldName [] = some true := rfl
  have hfind : find [] '<' = none := rfl
  cases d with
  | enumConstant d =>
    simp only [Decl.readName, Decl.named] at hname
    simp only [Visit, VisitEnumConstantDecl, hname, e, unlessOk]
    split <;> rfl
  | enum d =>
    simp only [Decl.readName, Decl.named] at hname
    simp only [Visit, VisitEnumDecl, hname, t, unlessOk]
    split <;> rfl
  | field d =>
    simp only [Decl.readName, Decl.named] at hname
    simp only [Visit, VisitFieldDecl, hname, fd, v, unlessOk]
    split
    · rfl
    · split
      · rfl
      · split <;> rfl
  | function d =>
    simp only [Decl.readName] at hname
    simp only [Visit, VisitFunctionDecl]
    split
    · rfl
    · by_cases hc : d.isConstructor = true
      · simp only [hc, if_true] at hname ⊢
        simp only [hname, hfind, fn, unlessOk]
      · simp only [hc, if_false, Bool.false_eq_true] at hname ⊢
        simp only [hname, fn, unlessOk]
  | record d =>
    simp only [Decl.readName, Decl.named] at hname
    simp only [Visit, VisitRecordDecl, hname, t, unlessOk]
    split <;> rfl
  | typedefName d =>
    simp only [Decl.readName, Decl.named] at hname
    simp only [Visit, VisitTypedefNameDecl, hname, t, unlessOk]
    split <;> rfl
  | var d =>
    simp only [Decl.readName, Decl.named] at hname
    simp only [Visit, VisitVarDecl, hname, k, fd, v, unlessOk]
    split
    · rfl
    · split
      · rfl
      · split
        · rfl
        · split
          · rfl
          · split <;> rfl

/-- C7, witness: the anonymous `struct` declared in `main` of `example.cc`. -/
theorem empty_name_is_valid_witness :
    (Decl.record exAnonymousStruct).readName = []
    ∧ (Decl.record exAnonymousStruct).isChecked = true
    ∧ Visit (Decl.record exAnonymousStruct) [] = some [] :=
  ⟨rfl, rfl, (empty_name_is_valid (Decl.record exAnonymousStruct) [] rfl).2.2.2.2.2.2.2.2.2.2⟩

/-! ### Types, functions and constants -/

/-- C9: `CheckTypeName s` is defined and true exactly when `s` is empty or capitalized,
camel case and accepted by the acronym rule; `CheckFunctionName s` is
`s == "main" || CheckTypeName s`; and `CheckFunctionName "main"` is true although
`"main"` is not capitalized. -/
theorem CheckFunctionName_eq (s : StringRef) :
    ∃ t, CheckTypeName s = some t
      ∧ (t = true
          ↔ s = [] ∨ (IsCapitalized s = some true ∧ IsCamelCase s = true
              ∧ IsUpperRule s = true))
      ∧ CheckFunctionName s = some (decide (s = "main".toList) || t)
      ∧ CheckFunctionName "main".toList = some true
      ∧ IsCapitalized "main".toList = some false
      ∧ CheckTypeName "main".toList = some false := by
  obtain ⟨t, ht⟩ := CheckTypeName_total s
  refine ⟨t, ht, ?_, ?_, by decide, by decide, by decide⟩
  · cases s with
    | nil =>
      have : t = true := by
        have h : CheckTypeName [] = some true := rfl
        rw [h] at ht
        exact (Option.some.inj ht).symm
      simp [this]
    | cons c cs =>
      rw [CheckTypeName_cons] at ht
      have ht2 := (Option.some.inj ht).symm
      subst ht2
      simp [IsCapitalized, Bool.and_assoc]
  · unfold CheckFunctionName
    by_cases hm : s = "main".toList
    · simp [hm]
    · have ht2 : orElse (some s.isEmpty)
          (andThen (andThen (IsCapitalized s) (some (IsCamelCase s))) (some (IsUpperRule s)))
          = some t := ht
      rw [if_neg hm, ht2, decide_eq_false hm]
      rfl

theorem BadName_eq_block (r : BadNameEntry) :
    BadName r.entity r.name r.filename r.line = diagnosticBlock r := by
  have h : ")\nIn ".toList = ")\n".toList ++ "In ".toList := by decide
  simp only [BadName, diagnosticBlock, h, List.append_assoc]

theorem EndSourceFileAction_loop_eq (badnames : Queue) (os : StringRef) :
    EndSourceFileAction.loop badnames os
      = ([], os ++ (badnames.map diagnosticBlock).flatten) := by
  induction badnames generalizing os with
  | nil => simp [EndSourceFileAction.loop]
  | cons el rest ih =>
    simp only [EndSourceFileAction.loop, ih, BadName_eq_block, List.map_cons,
      List.flatten_cons, List.append_assoc]

theorem PrintStatistics_eq (f : StringRef) (m : Int) :
    PrintStatistics f m
      = "===== Processed Stat ".toList ++ (GetFilename f
          ++ (" =====\nBad names found: ".toList ++ (showInt m ++ "\n".toList))) := by
  have h : " =====\nBad names found: ".toList
      = " =====\n".toList ++ "Bad names found: ".toList := by decide
  simp only [PrintStatistics, h, List.append_assoc]

/-- The queue and the text that `EndSourceFileAction` leaves: the count that is printed
is the size of the queue after its conversion to `int`. -/
theorem EndSourceFileAction_eq (f : StringRef) (badnames : Queue) :
    EndSourceFileAction f badnames
      = ([], (badnames.map diagnosticBlock).flatten
          ++ PrintStatistics f (toInt (badnames.length % 2 ^ 64))) := by
  simp only [EndSourceFileAction, EndSourceFileAction_loop_eq, List.nil_append]

theorem toInt_small (n : Nat) (h : n < 2 ^ 31) : toInt (n % 2 ^ 64) = (n : Int) := by
  have h1 : n % 2 ^ 64 = n := Nat.mod_eq_of_lt (by omega)
  have h2 : n % 2 ^ 32 = n := Nat.mod_eq_of_lt (by omega)
  unfold toInt
  rw [h1, h2, if_pos h]

theorem showInt_natCast (n : Nat) : showInt (n : Int) = (toString n).toList := rfl

/-- C11 (as amended): for every queue of fewer than `2^31` records and every file name
`f`, the text that `EndSourceFileAction` writes is exactly one diagnostic block per
record, in insertion order, followed by the summary block with the base name of `f` and
the number of records in decimal. -/
theorem EndSourceFileAction_report (f : StringRef) (badnames : Queue)
    (hsize : badnames.length < 2 ^ 31) :
    (EndSourceFileAction f badnames).2 = expectedReport f badnames := by
  rw [EndSourceFileAction_eq, PrintStatistics_eq, toInt_small _ hsize, showInt_natCast]
  rfl

/-- C11, witness: a queue of two records. -/
theorem EndSourceFileAction_report_witness :
    [exRecord, ⟨Entity.kType, "bad".toList, "/src/b.cc".toList, 7⟩].length < 2 ^ 31
    ∧ (EndSourceFileAction "/src/a.cc".toList
        [exRecord, ⟨Entity.kType, "bad".toList, "/src/b.cc".toList, 7⟩]).2
      = expectedReport "/src/a.cc".toList
        [exRecord, ⟨Entity.kType, "bad".toList, "/src/b.cc".toList, 7⟩]
    ∧ expectedReport "/src/a.cc".toList
        [exRecord, ⟨Entity.kType, "bad".toList, "/src/b.cc".toList, 7⟩]
      = ("Entity's name \"x\" does not meet the requirements (field)\nIn a.cc at line 1\n\n"
          ++ "Entity's name \"bad\" does not meet the requirements (type)\nIn b.cc at line 7\n\n"
          ++ "===== Processed Stat a.cc =====\nBad names found: 2\n").toList :=
  ⟨by decide,
    EndSourceFileAction_report "/src/a.cc".toList
      [exRecord, ⟨Entity.kType, "bad".toList, "/src/b.cc".toList, 7⟩] (by decide),
    by rfl⟩

/-- C11 (as stated) fails: for a queue of `2^31` records the count goes through the `int`
parameter of `PrintStatistics` and the summary reads "Bad names found: -2147483648", not
the number of records. -/
theorem EndSourceFileAction_report_counterexample :
    (EndSourceFileAction "a.cc".toList (List.replicate (2 ^ 31) exRecord)).2
      ≠ expectedReport "a.cc".toList (List.replicate (2 ^ 31) exRecord)
    ∧ (EndSourceFileAction "a.cc".toList (List.replicate (2 ^ 31) exRecord)).2
      = ((List.replicate (2 ^ 31) exRecord).map diagnosticBlock).flatten
        ++ "===== Processed Stat a.cc =====\nBad names found: -2147483648\n".toList := by
  have hn : toInt (2 ^ 31 % 2 ^ 64) = -2147483648 := by decide
  have hs : PrintStatistics "a.cc".toList (-2147483648)
      = "===== Processed Stat a.cc =====\nBad names found: -2147483648\n".toList := by
    decide
  have he : summaryBlock "a.cc".toList (2 ^ 31)
      = "===== Processed Stat a.cc =====\nBad names found: 2147483648\n".toList := by
    decide
  rw [EndSourceFileAction_eq]
  simp only [List.length_replicate, hn, hs, expectedReport, he]
  refine ⟨?_, trivial⟩
  intro h
  have h2 := List.append_cancel_left h
  revert h2
  decide

/-- C15: the drain loop of `EndSourceFileAction` ends on every queue and leaves the
queue empty; a second drain right after it writes no diagnostic block, only the summary
with "Bad names found: 0". -/
theorem EndSourceFileAction_drains (f g : StringRef) (badnames : Queue) (os : StringRef) :
    (EndSourceFileAction.loop badnames os).1 = []
    ∧ (EndSourceFileAction f badnames).1 = []
    ∧ EndSourceFileAction g (EndSourceFileAction f badnames).1
      = ([], "===== Processed Stat ".toList
          ++ (GetFilename g ++ " =====\nBad names found: 0\n".toList)) := by
  have h0 : toInt (0 % 2 ^ 64) = 0 := by decide
  have hz : " =====\nBad names found: ".toList ++ (showInt 0 ++ "\n".toList)
      = " =====\nBad names found: 0\n".toList := by decide
  have h1 : (EndSourceFileAction f badnames).1 = [] := by rw [EndSourceFileAction_eq]
  refine ⟨by rw [EndSourceFileAction_loop_eq], h1, ?_⟩
  rw [h1, EndSourceFileAction_eq, PrintStatistics_eq, List.length_nil, h0, hz, List.map_nil,
    List.flatten_nil, List.nil_append]

/-! ### The base name of a path -/

theorem GetFilename_eq (path : StringRef) :
    GetFilename path
      = path.drop ((GetFilename.loop path ((path.length + 2 ^ 64 - 1) % 2 ^ 64) + 1) % 2 ^ 64) :=
  rfl

/-- The loop of `GetFilename` started inside the string: it wraps when there is no `/`
at or below the start, and stops at the last `/` at or below the start otherwise. -/
theorem GetFilename_loop_spec (path : StringRef) (i : Nat) (hi : i < path.length) :
    (GetFilename.loop path i = 2 ^ 64 - 1 ∧ ∀ j, j ≤ i → path[j]? ≠ some '/')
    ∨ (GetFilename.loop path i ≤ i ∧ path[GetFilename.loop path i]? = some '/'
        ∧ ∀ j, GetFilename.loop path i < j → j ≤ i → path[j]? ≠ some '/') := by
  induction i with
  | zero =>
    by_cases hc : path[0] ≠ '/'
    · left
      rw [GetFilename.loop, dif_pos hi, if_pos hc]
      refine ⟨rfl, ?_⟩
      intro j hj
      have hj0 : j = 0 := by omega
      subst hj0
      rw [List.getElem?_eq_getElem hi]
      simpa using hc
    · right
      have hc2 : path[0] = '/' := by simpa using hc
      rw [GetFilename.loop, dif_pos hi, if_neg hc]
      refine ⟨Nat.le_refl _, by rw [List.getElem?_eq_getElem hi, hc2], ?_⟩
      intro j h1 h2
      omega
  | succ i ih =>
    by_cases hc : path[i + 1] ≠ '/'
    · rw [GetFilename.loop, dif_pos hi, if_pos hc]
      have hlast : path[i + 1]? ≠ some '/' := by
        rw [List.getElem?_eq_getElem hi]
        simpa using hc
      rcases ih (by omega) with ⟨h1, h2⟩ | ⟨h1, h2, h3⟩
      · left
        refine ⟨h1, ?_⟩
        intro j hj
        by_cases hj2 : j = i + 1
        · subst hj2; exact hlast
        · exact h2 j (by omega)
      · right
        refine ⟨by omega, h2, ?_⟩
        intro j hj1 hj2
        by_cases hj3 : j = i + 1
        · subst hj3; exact hlast
        · exact h3 j hj1 (by omega)
    · right
      have hc2 : path[i + 1] = '/' := by simpa using hc
      rw [GetFilename.loop, dif_pos hi, if_neg hc]
      refine ⟨Nat.le_refl _, by rw [List.getElem?_eq_getElem hi, hc2], ?_⟩
      intro j h1 h2
      omega

/-- C12: for every path `p` (of a size a `std::string` can have) `GetFilename p` has no
`/`, `p` is a prefix followed by `GetFilename p` where the prefix is empty or ends with
`/`, `GetFilename p` is all of `p` when `p` has no `/`, and the index given to `substr`
after the wrapping arithmetic is at most the size of `p`; the empty path, a path
without `/` and a path ending in `/` are covered. -/
theorem GetFilename_spec (p : StringRef) (hsize : p.length < 2 ^ 64) :
    '/' ∉ GetFilename p
    ∧ (∃ pre, p = pre ++ GetFilename p ∧ (pre = [] ∨ pre.getLast? = some '/'))
    ∧ ('/' ∉ p → GetFilename p = p)
    ∧ (GetFilename.loop p ((p.length + 2 ^ 64 - 1) % 2 ^ 64) + 1) % 2 ^ 64 ≤ p.length
    ∧ GetFilename [] = []
    ∧ GetFilename "name".toList = "name".toList
    ∧ GetFilename "dir/".toList = []
    ∧ GetFilename "/a/b/c.cc".toList = "c.cc".toList := by
  have key : '/' ∉ GetFilename p
      ∧ (∃ pre, p = pre ++ GetFilename p ∧ (pre = [] ∨ pre.getLast? = some '/'))
      ∧ ('/' ∉ p → GetFilename p = p)
      ∧ (GetFilename.loop p ((p.length + 2 ^ 64 - 1) % 2 ^ 64) + 1) % 2 ^ 64 ≤ p.length := by
    by_cases hp : p = []
    · subst hp
      refine ⟨by decide, ⟨[], by decide, Or.inl rfl⟩, fun _ => by decide, by decide⟩
    · have hpos : 0 < p.length := List.length_pos.mpr hp
      have hi0 : (p.length + 2 ^ 64 - 1) % 2 ^ 64 = p.length - 1 := by omega
      rw [GetFilename_eq, hi0]
      rcases GetFilename_loop_spec p (p.length - 1) (by omega) with ⟨h1, h2⟩ | ⟨h1, h2, h3⟩
      · have hk : (GetFilename.loop p (p.length - 1) + 1) % 2 ^ 64 = 0 := by
          rw [h1]; decide
        have hno : '/' ∉ p := by
          intro hmem
          obtain ⟨n, hn⟩ := List.mem_iff_getElem?.mp hmem
          have hlt : n < p.length := by
            by_contra hge
            rw [List.getElem?_eq_none (by omega)] at hn
            exact Option.noConfusion hn
          exact h2 n (by omega) hn
        rw [hk, List.drop_zero]
        exact ⟨hno, ⟨[], rfl, Or.inl rfl⟩, fun _ => rfl, Nat.zero_le _⟩
      · have hk : (GetFilename.loop p (p.length - 1) + 1) % 2 ^ 64
            = GetFilename.loop p (p.length - 1) + 1 := Nat.mod_eq_of_lt (by omega)
        rw [hk]
        generalize GetFilename.loop p (p.length - 1) = k at h1 h2 h3
        have hklt : k < p.length := by omega
        have hget : p[k] = '/' := by
          rw [List.getElem?_eq_getElem hklt] at h2
          exact Option.some.inj h2
        have hno : '/' ∉ p.drop (k + 1) := by
          intro hmem
          obtain ⟨n, hn⟩ := List.mem_iff_getElem?.mp hmem
          rw [List.getElem?_drop] at hn
          have hlt : k + 1 + n < p.length := by
            by_contra hge
            rw [List.getElem?_eq_none (by omega)] at hn
            exact Option.noConfusion hn
          exact h3 (k + 1 + n) (by omega) (by omega) hn
        refine ⟨hno, ⟨p.take k ++ ['/'], ?_, Or.inr (List.getLast?_concat _)⟩, ?_, by omega⟩
        · rw [List.append_assoc, List.singleton_append, ← hget,
            ← List.drop_eq_getElem_cons hklt, List.take_append_drop]
        · intro hnone
          exact absurd (hget ▸ List.getElem_mem hklt) hnone
  exact ⟨key.1, key.2.1, key.2.2.1, key.2.2.2, by decide, by decide, by decide, by decide⟩

/-- C12, witness: the path `/a/b/c.cc`. -/
theorem GetFilename_spec_witness :
    "/a/b/c.cc".toList.length < 2 ^ 64
    ∧ '/' ∉ GetFilename "/a/b/c.cc".toList
    ∧ (∃ pre, "/a/b/c.cc".toList = pre ++ GetFilename "/a/b/c.cc".toList
        ∧ (pre = [] ∨ pre.getLast? = some '/')) :=
  have h := GetFilename_spec "/a/b/c.cc".toList (by decide)
  ⟨by decide, h.1, h.2.1⟩

/-! ### The visitor in one table -/

/-- What a handler does to the queue: it pushes the record of the declaration when the
declaration is checked and fails its validator, and leaves the queue as it was
otherwise. -/
theorem Visit_eq (d : Decl) (badnames : Queue) :
    Visit d badnames = some (if d.fails = true then badnames ++ [d.entry] else badnames) := by
  by_cases hc : d.isChecked = true
  · obtain ⟨hm, hi⟩ := (isChecked_iff d).mp hc
    cases d with
    | enumConstant d =>
      obtain ⟨b, hb⟩ := CheckEnumConstantName_total d.name
      simp only [Decl.named] at hm hi
      cases b <;>
        simp [Visit, VisitEnumConstantDecl, Decl.fails, Decl.validate, Decl.entry,
          Decl.entity, Decl.checkedName, Decl.named, Decl.isChecked, hm, hi, hb, unlessOk,
          ReportBadName]
    | enum d =>
      obtain ⟨b, hb⟩ := CheckTypeName_total d.name
      simp only [Decl.named] at hm hi
      cases b <;>
        simp [Visit, VisitEnumDecl, Decl.fails, Decl.validate, Decl.entry,
          Decl.entity, Decl.checkedName, Decl.named, Decl.isChecked, hm, hi, hb, unlessOk,
          ReportBadName]
    | field d =>
      obtain ⟨b, hb⟩ := CheckFieldName_total d.name
      obtain ⟨v, hv⟩ := CheckVarName_total d.name
      simp only [Decl.named] at hm hi
      cases hcl : d.parent.isClass <;> cases hco : d.isConstQualified <;> cases b <;>
        cases v <;>
        simp [Visit, VisitFieldDecl, Decl.fails, Decl.validate, Decl.entry,
          Decl.entity, Decl.checkedName, Decl.named, Decl.isChecked, hm, hi, hb, hv, hcl, hco,
          unlessOk, ReportBadName]
    | function d =>
      simp only [Decl.named] at hm hi
      cases hct : d.isConstructor
      · obtain ⟨b, hb⟩ := CheckFunctionName_total d.name
        cases b <;>
          simp [Visit, VisitFunctionDecl, Decl.fails, Decl.validate, Decl.entry,
            Decl.entity, Decl.checkedName, Decl.named, Decl.isChecked, hm, hi, hb, hct,
            unlessOk, ReportBadName]
      · cases hfd : find d.nameInfo '<' with
        | none =>
          obtain ⟨b, hb⟩ := CheckFunctionName_total d.nameInfo
          cases b <;>
            simp [Visit, VisitFunctionDecl, Decl.fails, Decl.validate, Decl.entry,
              Decl.entity, Decl.checkedName, Decl.named, Decl.isChecked, hm, hi, hb, hct,
              hfd, unlessOk, ReportBadNameCtor]
        | some pos =>
          obtain ⟨b, hb⟩ := CheckFunctionName_total (d.nameInfo.take pos)
          cases b <;>
            simp [Visit, VisitFunctionDecl, Decl.fails, Decl.validate, Decl.entry,
              Decl.entity, Decl.checkedName, Decl.named, Decl.isChecked, hm, hi, hb, hct,
              hfd, unlessOk, ReportBadNameCtor]
    | record d =>
      obtain ⟨b, hb⟩ := CheckTypeName_total d.name
      simp only [Decl.named] at hm hi
      cases b <;>
        simp [Visit, VisitRecordDecl, Decl.fails, Decl.validate, Decl.entry,
          Decl.entity, Decl.checkedName, Decl.named, Decl.isChecked, hm, hi, hb, unlessOk,
          ReportBadName]
    | typedefName d =>
      obtain ⟨b, hb⟩ := CheckTypeName_total d.name
      simp only [Decl.named] at hm hi
      cases b <;>
        simp [Visit, VisitTypedefNameDecl, Decl.fails, Decl.validate, Decl.entry,
          Decl.entity, Decl.checkedName, Decl.named, Decl.isChecked, hm, hi, hb, unlessOk,
          ReportBadName]
    | var d =>
      obtain ⟨b, hb⟩ := CheckFieldName_total d.name
      obtain ⟨v, hv⟩ := CheckVarName_total d.name
      obtain ⟨k, hk⟩ := CheckConstantName_total d.name
      simp only [Decl.named] at hm hi
      cases hdc : d.declContext with
      | none =>
        cases hq : d.isConstQualified <;> cases hx : d.isConstexpr <;>
          cases b <;> cases v <;> cases k <;>
          simp [Visit, VisitVarDecl, Decl.fails, Decl.validate, Decl.entry,
            Decl.entity, Decl.checkedName, Decl.named, Decl.isChecked, hm, hi, hb, hv, hk,
            hq, hx, hdc, unlessOk, ReportBadName]
      | some t =>
        cases hq : d.isConstQualified <;> cases hx : d.isConstexpr <;>
          cases hcl : t.isClass <;> cases b <;> cases v <;> cases k <;>
          simp [Visit, VisitVarDecl, Decl.fails, Decl.validate, Decl.entry,
            Decl.entity, Decl.checkedName, Decl.named, Decl.isChecked, hm, hi, hb, hv, hk,
            hq, hx, hdc, hcl, unlessOk, ReportBadName]
  · have hc2 : d.isChecked = false := by simpa using hc
    rw [Visit_not_checked d badnames hc2]
    simp [Decl.fails, hc2]

/-- C13: a handler called on a declaration that is not located in the main file, or
whose location is a macro expansion, leaves the violation queue unchanged, whatever the
kind, the name, the context and the constness of the declaration are. -/
theorem Visit_outside_main_file (d : Decl) (badnames : Queue)
    (hout : d.named.isInMainFile = false ∨ d.named.isMacroID = true) :
    Visit d badnames = some badnames := by
  apply Visit_not_checked
  rcases hout with h | h <;> simp [Decl.isChecked, h]

/-- C13, witness: a variable of an included header and a variable from a macro
expansion, both with names that fail the Variable rule. -/
theorem Visit_outside_main_file_witness :
    Visit (Decl.var exHeaderVar) [exRecord] = some [exRecord]
    ∧ Visit (Decl.var exMacroVar) [exRecord] = some [exRecord]
    ∧ CheckVarName exMacroVar.name = some false :=
  ⟨Visit_outside_main_file (Decl.var exHeaderVar) [exRecord] (Or.inl rfl),
    Visit_outside_main_file (Decl.var exMacroVar) [exRecord] (Or.inr rfl), by decide⟩

/-! ### The queue only grows -/

theorem HandleTranslationUnit_eq (ds : List Decl) (badnames : Queue) :
    HandleTranslationUnit ds badnames
      = some (badnames ++ (ds.filter Decl.fails).map Decl.entry) := by
  induction ds generalizing badnames with
  | nil => simp [HandleTranslationUnit]
  | cons d ds ih =>
    simp only [HandleTranslationUnit, Visit_eq]
    rw [ih]
    cases hf : d.fails <;> simp [hf]

/-- C14: the traversal only appends to the violation queue. The queue afterwards is the
queue before followed by one record for each declaration that fails its validator, in the
order of the visits; each visit leaves the queue as it was or appends one record; and two
failing declarations with the same name, file and line give two records. -/
theorem HandleTranslationUnit_appends (ds : List Decl) (badnames : Queue) :
    HandleTranslationUnit ds badnames
        = some (badnames ++ (ds.filter Decl.fails).map Decl.entry)
    ∧ (∀ d ∈ ds, ∀ q, Visit d q = some q ∨ Visit d q = some (q ++ [d.entry]))
    ∧ (∀ d ∈ ds, ∀ q, Visit d q = some (q ++ [d.entry])
        ↔ (d.isChecked = true ∧ d.validate = some false))
    ∧ HandleTranslationUnit [Decl.var exWrongVar, Decl.var exWrongVar] [exRecord]
        = some [exRecord, ⟨Entity.kVariable, "Wrong".toList, "example.cc".toList, 80⟩,
            ⟨Entity.kVariable, "Wrong".toList, "example.cc".toList, 80⟩] := by
  refine ⟨HandleTranslationUnit_eq ds badnames, ?_, ?_, by decide⟩
  · intro d _ q
    rw [Visit_eq]
    cases d.fails <;> simp
  · intro d _ q
    rw [Visit_eq]
    cases hf : d.fails
    · have hne : ¬ (d.isChecked = true ∧ d.validate = some false) := by
        intro h
        simp [Decl.fails, h.1, h.2] at hf
      simp [hne]
    · have hyes : d.isChecked = true ∧ d.validate = some false := by
        simpa [Decl.fails] using hf
      simp [hyes]

/-! ### Constructors -/

theorem take_indexOf (n : StringRef) (c : Char) :
    n.take (n.indexOf c) = n.takeWhile (fun x => x != c) := by
  induction n with
  | nil => rfl
  | cons x xs ih =>
    rw [List.indexOf_cons]
    by_cases hx : x = c
    · subst hx
      simp
    · have h1 : (x == c) = false := by simpa using hx
      have h2 : (x != c) = true := by simpa using hx
      simp only [h1, cond_false, List.take_succ_cons, List.takeWhile_cons, h2, if_true, ih]

theorem checkedName_constructor (d : FunctionDecl) (hctor : d.isConstructor = true) :
    (Decl.function d).checkedName = beforeTemplateArguments d.nameInfo := by
  unfold beforeTemplateArguments
  rw [← take_indexOf]
  simp only [Decl.checkedName, hctor, if_true, find]
  by_cases hlt : List.indexOf '<' d.nameInfo < d.nameInfo.length
  · simp [hlt]
  · simp only [hlt, if_false]
    exact (List.take_of_length_le (by omega)).symm

theorem beforeTemplateArguments_longest (n p rest : StringRef) (hn : n = p ++ rest)
    (hp : '<' ∉ p) : p.length ≤ (beforeTemplateArguments n).length := by
  induction n generalizing p with
  | nil =>
    have : p = [] := by
      cases p with
      | nil => rfl
      | cons a as => simp at hn
    simp [this]
  | cons x xs ih =>
    cases p with
    | nil => simp
    | cons a as =>
      simp only [List.cons_append, List.cons.injEq] at hn
      obtain ⟨hxa, hxs⟩ := hn
      subst hxa
      have hx : (x != '<') = true := by
        have : x ≠ '<' := fun h => hp (by simp [h])
        simpa using this
      have has : '<' ∉ as := fun h => hp (List.mem_cons_of_mem _ h)
      have hlen := ih as hxs has
      unfold beforeTemplateArguments at hlen ⊢
      simp only [List.takeWhile_cons, hx, if_true, List.length_cons]
      omega

/-- C17: for a constructor in the main file, not from a macro, with name string `n`, the
name that `VisitFunctionDecl` validates with `CheckFunctionName`, and stores in the record
when the validation fails, is the text of `n` before the first `<`: it is a prefix of `n`
without `<`, what follows it is nothing or starts with `<`, no prefix of `n` without `<`
is longer, and it is `n` itself when `n` has no `<`. -/
theorem VisitFunctionDecl_constructor (d : FunctionDecl) (badnames : Queue)
    (hctor : d.isConstructor = true) (hmain : d.isInMainFile = true)
    (hmac : d.isMacroID = false) :
    VisitFunctionDecl d badnames
        = some (if CheckFunctionName (beforeTemplateArguments d.nameInfo) = some false
            then badnames ++ [⟨Entity.kFunction, beforeTemplateArguments d.nameInfo,
              d.filename, toInt d.spellingLine⟩]
            else badnames)
    ∧ (∃ rest, d.nameInfo = beforeTemplateArguments d.nameInfo ++ rest
        ∧ (rest = [] ∨ rest.head? = some '<'))
    ∧ '<' ∉ beforeTemplateArguments d.nameInfo
    ∧ (∀ p rest, d.nameInfo = p ++ rest → '<' ∉ p
        → p.length ≤ (beforeTemplateArguments d.nameInfo).length)
    ∧ ('<' ∉ d.nameInfo → beforeTemplateArguments d.nameInfo = d.nameInfo) := by
  refine ⟨?_, ?_, ?_, fun p rest h1 h2 => beforeTemplateArguments_longest _ p rest h1 h2, ?_⟩
  · have h := Visit_eq (Decl.function d) badnames
    have hv : Visit (Decl.function d) badnames = VisitFunctionDecl d badnames := rfl
    rw [hv] at h
    rw [h]
    have hchk : (Decl.function d).isChecked = true := by
      simp [Decl.isChecked, Decl.named, hmain, hmac]
    have hval : (Decl.function d).validate
        = CheckFunctionName (beforeTemplateArguments d.nameInfo) := by
      rw [← checkedName_constructor d hctor]
      rfl
    have hent : (Decl.function d).entry
        = ⟨Entity.kFunction, beforeTemplateArguments d.nameInfo, d.filename,
            toInt d.spellingLine⟩ := by
      rw [← checkedName_constructor d hctor]
      rfl
    simp only [Decl.fails, hchk, hval, hent, Bool.true_and, beq_iff_eq]
  · refine ⟨d.nameInfo.dropWhile (fun c => c != '<'),
      (List.takeWhile_append_dropWhile _ _).symm, ?_⟩
    cases hdw : d.nameInfo.dropWhile (fun c => c != '<') with
    | nil => exact Or.inl rfl
    | cons x xs =>
      right
      have hx := List.head_dropWhile_not (fun c => c != '<') d.nameInfo
        (by rw [hdw]; exact List.cons_ne_nil _ _)
      simp only [hdw, List.head_cons] at hx
      have : x = '<' := by simpa using hx
      simp [this]
  · intro hmem
    have := List.mem_takeWhile_imp hmem
    simp at this
  · intro hno
    unfold beforeTemplateArguments
    rw [List.takeWhile_eq_self_iff]
    intro x hx
    have : x ≠ '<' := fun h => hno (h ▸ hx)
    simpa using this

/-- C17, witness: a constructor named `vec<T>`, for which the record holds `vec`. -/
theorem VisitFunctionDecl_constructor_witness :
    beforeTemplateArguments exTemplateCtor.nameInfo = "vec".toList
    ∧ CheckFunctionName "vec".toList = some false
    ∧ VisitFunctionDecl exTemplateCtor []
        = some (if CheckFunctionName (beforeTemplateArguments exTemplateCtor.nameInfo)
              = some false
            then [] ++ [⟨Entity.kFunction, beforeTemplateArguments exTemplateCtor.nameInfo,
              exTemplateCtor.filename, toInt exTemplateCtor.spellingLine⟩]
            else []) :=
  ⟨by decide, by decide, (VisitFunctionDecl_constructor exTemplateCtor [] rfl rfl rfl).1⟩

/-! ### Variables -/

/-- C18: for a variable in the main file, not from a macro, the branch of `VisitVarDecl`
depends on `is_const` and `is_in_class` only. A const or constexpr variable is checked
with `CheckConstantName` and reported as `Entity::kConst` in every context; a non-const
variable in a class is checked with `CheckFieldName` and reported as `Entity::kField`;
every other variable is checked with `CheckVarName` and reported as
`Entity::kVariable`. Where the third branch is reached its condition equals `is_const`. -/
theorem VisitVarDecl_branches (d : VarDecl) (badnames : Queue)
    (hmain : d.isInMainFile = true) (hmac : d.isMacroID = false) :
    VisitVarDecl d badnames
        = (if d.is_const = true then
            unlessOk (CheckConstantName d.name)
              (ReportBadName Entity.kConst d.toNamedDecl) badnames
          else if d.is_in_class = true then
            unlessOk (CheckFieldName d.name)
              (ReportBadName Entity.kField d.toNamedDecl) badnames
          else
            unlessOk (CheckVarName d.name)
              (ReportBadName Entity.kVariable d.toNamedDecl) badnames)
    ∧ ((d.is_const && d.is_in_class) = false → d.is_in_class = false
        → (d.is_const && (!d.is_in_struct || !d.is_in_class)) = d.is_const) := by
  constructor
  · unfold VisitVarDecl VarDecl.is_const VarDecl.is_in_class
    cases hdc : d.declContext with
    | none =>
      cases hq : d.isConstQualified <;> cases hx : d.isConstexpr <;>
        simp [hmain, hmac]
    | some t =>
      cases hq : d.isConstQualified <;> cases hx : d.isConstexpr <;>
        cases hcl : t.isClass <;> simp [hmain, hmac, hcl]
  · intro _ h2
    simp [h2]

/-- C18, witness: the constant `kBad_` of `class Test`, reported as a constant, and a
non-const variable `Bad` of a struct, reported as a variable. -/
theorem VisitVarDecl_branches_witness :
    VisitVarDecl exBadConstVar []
        = some [⟨Entity.kConst, "kBad_".toList, "example.cc".toList, 26⟩]
    ∧ VisitVarDecl exStructVar []
        = some [⟨Entity.kVariable, "Bad".toList, "example.cc".toList, 27⟩]
    ∧ VisitVarDecl exStructVar []
        = (if exStructVar.is_const = true then
            unlessOk (CheckConstantName exStructVar.name)
              (ReportBadName Entity.kConst exStructVar.toNamedDecl) []
          else if exStructVar.is_in_class = true then
            unlessOk (CheckFieldName exStructVar.name)
              (ReportBadName Entity.kField exStructVar.toNamedDecl) []
          else
            unlessOk (CheckVarName exStructVar.name)
              (ReportBadName Entity.kVariable exStructVar.toNamedDecl) []) :=
  ⟨by decide, by decide, (VisitVarDecl_branches exStructVar [] rfl rfl).1⟩

/-! ### Names that are one run -/

theorem CheckFieldName_true_iff (y : StringRef) (hy : y ≠ []) :
    CheckFieldName y = some true
      ↔ y.getLast? = some '_' ∧ y.head? ≠ some '_' ∧ IsSnakeCase.loop 0 y = true := by
  cases y with
  | nil => exact absurd rfl hy
  | cons c cs =>
    rw [CheckFieldName_cons, List.getLast?_eq_getLast _ (List.cons_ne_nil c cs)]
    simp

theorem CheckVarName_true_iff (y : StringRef) (hy : y ≠ []) :
    CheckVarName y = some true
      ↔ y.getLast? ≠ some '_' ∧ y.head? ≠ some '_' ∧ IsSnakeCase.loop 0 y = true := by
  cases y with
  | nil => exact absurd rfl hy
  | cons c cs =>
    rw [CheckVarName_cons, List.getLast?_eq_getLast _ (List.cons_ne_nil c cs)]
    simp

/-- The loop of `IsSnakeCase` on a name followed by an underscore: the name passes and
does not end in an underscore (with nothing before, the counter is zero). -/
theorem IsSnakeCase_loop_concat (length : Nat) (cs : StringRef) :
    IsSnakeCase.loop length (cs ++ ['_']) = true
      ↔ IsSnakeCase.loop length cs = true
        ∧ (cs = [] → length = 0) ∧ cs.getLast? ≠ some '_' := by
  induction cs generalizing length with
  | nil =>
    have hu : (decide (charToInt '_' ≠ tolower (charToInt '_')) || isdigit (charToInt '_'))
        = false := by decide
    simp only [List.nil_append, IsSnakeCase.loop, hu, Bool.false_eq_true, if_false, if_true]
    by_cases hl : length = 0
    · simp [hl]
    · have : length + 1 > 1 := by omega
      simp [hl, this]
  | cons c cs ih =>
    simp only [List.cons_append]
    unfold IsSnakeCase.loop
    by_cases hbad : (decide (charToInt c ≠ tolower (charToInt c)) || isdigit (charToInt c)) = true
    · rw [if_pos hbad, if_pos hbad]
      simp
    · simp only [hbad, if_false, Bool.false_eq_true]
      by_cases hgt : (if c = '_' then length + 1 else 0) > 1
      · simp [hgt]
      · simp only [hgt, if_false]
        rw [ih]
        cases cs with
        | nil =>
          by_cases hc : c = '_'
          · simp [hc]
          · simp [hc]
        | cons d ds => simp

theorem CheckVarName_iff_concat (x : StringRef) (hx : x ≠ []) :
    CheckVarName x = some true ↔ CheckFieldName (x ++ ['_']) = some true := by
  rw [CheckVarName_true_iff x hx, CheckFieldName_true_iff (x ++ ['_']) (by simp),
    IsSnakeCase_loop_concat, List.getLast?_concat]
  have hh : (x ++ ['_']).head? = x.head? := by
    cases x with
    | nil => exact absurd rfl hx
    | cons c cs => rfl
  rw [hh]
  constructor
  · rintro ⟨h1, h2, h3⟩
    exact ⟨rfl, h2, h3, fun h => absurd h hx, h1⟩
  · rintro ⟨-, h2, h3, -, h5⟩
    exact ⟨h5, h2, h3⟩

/-- C19: the Field and the Variable rule differ by one trailing underscore. A non-empty
name `x` is accepted by `CheckVarName` exactly when `x` followed by `_` is accepted by
`CheckFieldName`; every non-empty name accepted by `CheckFieldName` is a non-empty name
accepted by `CheckVarName` followed by `_`; and no non-empty name is accepted by both. -/
theorem CheckVarName_CheckFieldName (x : StringRef) (hx : x ≠ []) :
    (CheckVarName x = some true ↔ CheckFieldName (x ++ ['_']) = some true)
    ∧ (CheckFieldName x = some true
        → ∃ y, y ≠ [] ∧ x = y ++ ['_'] ∧ CheckVarName y = some true)
    ∧ ¬ (CheckFieldName x = some true ∧ CheckVarName x = some true) := by
  refine ⟨CheckVarName_iff_concat x hx, ?_, ?_⟩
  · intro hf
    have h := (CheckFieldName_true_iff x hx).mp hf
    have hsplit : x = x.dropLast ++ ['_'] := by
      have hl : x.getLast hx = '_' := by
        have := h.1
        rw [List.getLast?_eq_getLast _ hx] at this
        exact Option.some.inj this
      rw [← hl]
      exact (List.dropLast_append_getLast hx).symm
    have hne : x.dropLast ≠ [] := by
      intro he
      rw [he] at hsplit
      rw [hsplit] at h
      exact h.2.1 rfl
    refine ⟨x.dropLast, hne, hsplit, ?_⟩
    rw [CheckVarName_iff_concat _ hne, ← hsplit]
    exact hf
  · rintro ⟨hf, hv⟩
    exact ((CheckVarName_true_iff x hx).mp hv).1 ((CheckFieldName_true_iff x hx).mp hf).1

/-- C19, witness: the variable name `field` and the field name `field_` of `example.cc`. -/
theorem CheckVarName_CheckFieldName_witness :
    "field".toList ≠ [] ∧ CheckVarName "field".toList = some true
    ∧ CheckFieldName ("field".toList ++ ['_']) = some true
    ∧ CheckFieldName "field_".toList = some true
    ∧ CheckVarName "field_".toList = some false :=
  have h := CheckVarName_CheckFieldName "field".toList (by decide)
  ⟨by decide, by decide, h.1.mp (by decide), by decide, by decide⟩

end NameChecker
